import Mathlib

/-!
Verification development for the GSD kanban backend.

The task data model and the HTTP handlers are shallowly embedded from the
tasks router (`src/unnamed/part_003`) and the schema in
`packages/backend/migrations/1_initial_schema.sql`.  Database rows become
Lean structures, each Express handler becomes a pure function from the
request and a database state to a typed result paired with the next state,
and the SQL statements of each handler are translated clause by clause
(filters for `WHERE`, list surgery for `INSERT`/`UPDATE`/`DELETE`).

One fact of the source dominates the create and patch handlers: the task
column field is named `column`, a fully reserved word in PostgreSQL — the
schema itself must write `"column"` (migration 1) and the queries may only
reference it qualified (`t.column`, as GET `/tasks` does).  The router
nevertheless uses it bare in four statements: the max-position query and
the INSERT of POST `/tasks`, and the UPDATE's RETURNING list and the
post-commit re-fetch of PATCH `/tasks/:id`.  Each of those statements is a
syntax error at execution time, is caught by the handler's try/catch, and
turns into a rolled-back 500 response.  The embeddings of `createTask` and
`patchTask` below model this traced behaviour, not the dead success code
that follows the failing statements.

The only endpoint whose backend source is absent from the repository
snapshot, `POST /tasks/:id/move`, is modelled from the specification; its
definition is marked accordingly.
-/

/-- A JSON value as far as the handlers inspect one: either a string or some
non-string value.  For a non-string value we record only its JavaScript
truthiness, which is all the validation code observes. -/
inductive JVal where
  | jstr : String → JVal
  | jother : Bool → JVal
  deriving DecidableEq, Repr

/-- One row of the `tasks` table, together with its `task_assignees` and
`task_tags` child rows (which are cascade-deleted with the task, so folding
them into the row is faithful).  Timestamps are omitted: no claim mentions
them. -/
structure TaskRow where
  id : Nat
  boardId : Nat
  title : String
  description : Option String
  column : String
  position : Int
  priority : String
  dueDate : Option String
  assignees : List Nat
  tags : List String
  deriving DecidableEq, Repr

/-- One row of the `boards` table (`id`, `account_id`). -/
structure BoardRow where
  id : Nat
  accountId : Nat
  deriving DecidableEq, Repr

/-- The relational state the task handlers read and write: `boards`,
`account_members` (as (account_id, user_id) pairs), `tasks`, and the
`SERIAL` counter backing `tasks.id`. -/
structure DB where
  boards : List BoardRow
  members : List (Nat × Nat)
  tasks : List TaskRow
  nextTaskId : Nat
  deriving DecidableEq, Repr

/-- `VALID_COLUMNS` from the tasks router. -/
def VALID_COLUMNS : List String := ["goals", "inbox", "today", "wait", "finished", "someday"]

/-- `VALID_PRIORITIES` from the tasks router. -/
def VALID_PRIORITIES : List String := ["hot", "warm", "normal", "cold"]

/-- Membership test against `account_members`. -/
def isMember (db : DB) (accountId userId : Nat) : Bool :=
  db.members.contains (accountId, userId)

/-- The join `tasks INNER JOIN boards INNER JOIN account_members` restricted
to one board id: does some board row with this id belong to an account the
user is a member of? -/
def canAccessBoard (db : DB) (userId bid : Nat) : Bool :=
  db.boards.any (fun b => b.id == bid && isMember db b.accountId userId)

/-- Board resolution used by GET and POST `/tasks`:
`SELECT b.id FROM boards b INNER JOIN account_members am ... LIMIT 1`. -/
def findBoard (db : DB) (userId : Nat) : Option Nat :=
  (db.boards.find? (fun b => isMember db b.accountId userId)).map BoardRow.id

/-- The membership-scoped task lookup used by PATCH and DELETE `/tasks/:id`:
`SELECT t.id FROM tasks t INNER JOIN boards b INNER JOIN account_members am
WHERE t.id = $1 AND am.user_id = $2`. -/
def findAccessible (db : DB) (userId tid : Nat) : Option TaskRow :=
  db.tasks.find? (fun t => t.id == tid && canAccessBoard db userId t.boardId)

/-- The row predicate `board_id = $1 AND "column" = $2`. -/
def inCol (b : Nat) (c : String) (u : TaskRow) : Bool :=
  u.boardId == b && u.column == c

/-- Number of tasks in one (board, column). -/
def countColumn (db : DB) (b : Nat) (c : String) : Nat :=
  (db.tasks.filter (inCol b c)).length

/-- JavaScript falsiness of the request's `title` property (`!title`):
an absent property, the empty string, or a falsy non-string. -/
def jsFalsy : Option JVal → Bool
  | none => true
  | some (JVal.jstr s) => s == ""
  | some (JVal.jother truthy) => !truthy

/-- `typeof title === 'string'`. -/
def isStr : Option JVal → Bool
  | some (JVal.jstr _) => true
  | _ => false

/-- The string payload of the title, defaulting to `""`. -/
def strOf : Option JVal → String
  | some (JVal.jstr s) => s
  | _ => ""

/-- JavaScript's `String.prototype.trim`, embedded structurally over the
character list (Lean's own `String.trim` is defined by well-founded
recursion on byte positions and does not reduce in the kernel). -/
def trimStr (s : String) : String :=
  String.mk (((s.data.dropWhile Char.isWhitespace).reverse.dropWhile Char.isWhitespace).reverse)

/-- The POST `/tasks` title rejection condition:
`!title || typeof title !== 'string' || title.trim().length === 0`. -/
def titleInvalid (v : Option JVal) : Bool :=
  jsFalsy v || !isStr v || (trimStr (strOf v)).length == 0

/-- One step of the tag-insertion loop: skip non-strings and blank strings,
insert `tag.trim()`, and let the `(task_id, tag)` primary key plus
`ON CONFLICT DO NOTHING` drop duplicates. -/
def insertTagStep (acc : List String) (v : JVal) : List String :=
  match v with
  | JVal.jstr s =>
      if (trimStr s).length != 0 && !(acc.contains (trimStr s)) then acc ++ [trimStr s] else acc
  | JVal.jother _ => acc

/-- The tag rows produced by inserting the submitted list in order. -/
def storedTags (ts : List JVal) : List String :=
  ts.foldl insertTagStep []

/-- One step of the assignee-insertion loop: the `(task_id, user_id)` primary
key plus `ON CONFLICT DO NOTHING` drops duplicates. -/
def insertAssigneeStep (acc : List Nat) (a : Nat) : List Nat :=
  if acc.contains a then acc else acc ++ [a]

/-- The assignee rows produced by inserting the submitted list in order. -/
def storedAssignees (l : List Nat) : List Nat :=
  l.foldl insertAssigneeStep []

/-- The 400 message for an invalid column, naming the valid columns. -/
def invalidColumnMsg : String :=
  "Invalid column. Must be one of: " ++ String.intercalate ", " VALID_COLUMNS

/-- The 400 message for an invalid priority. -/
def invalidPriorityMsg : String :=
  "Invalid priority. Must be one of: " ++ String.intercalate ", " VALID_PRIORITIES

/-- The request body of POST `/tasks`, after the destructuring
`const { title, description = null, column = 'inbox', ... } = req.body`.
`none` stands for an absent property. -/
structure CreateReq where
  title : Option JVal
  description : Option String := none
  column : Option String := none
  priority : Option String := none
  dueDate : Option String := none
  assigneeIds : List Nat := []
  tags : List JVal := []
  deriving DecidableEq, Repr

/-- Outcome of POST `/tasks`.  There is no success constructor: the
handler's success path is unreachable (see `createTask`). -/
inductive CreateResult where
  | badRequest : String → CreateResult
  | notFound : String → CreateResult
  | serverError : String → CreateResult
  deriving DecidableEq, Repr

/-- HTTP status of a create outcome. -/
def CreateResult.status : CreateResult → Nat
  | .badRequest _ => 400
  | .notFound _ => 404
  | .serverError _ => 500

/-- POST `/tasks` from the tasks router, as it actually executes against
Postgres: title, column and priority validation (all before any SQL),
board resolution, and then the max-position query
`SELECT COALESCE(MAX(position), 0) + 1 ... WHERE board_id = $1 AND
column = $2` — whose bare reserved word `column` is a Postgres syntax
error (the schema writes `"column"`), as is the subsequent
`INSERT INTO tasks (..., column, ...)`.  The error is caught, the
transaction rolled back, and the handler answers 500
`Failed to create task`.  No task row is ever inserted by this
endpoint. -/
def createTask (db : DB) (userId : Nat) (req : CreateReq) : CreateResult × DB :=
  let col := req.column.getD "inbox"
  let pri := req.priority.getD "normal"
  if titleInvalid req.title then
    (.badRequest "Title is required", db)
  else if !(VALID_COLUMNS.contains col) then
    (.badRequest invalidColumnMsg, db)
  else if !(VALID_PRIORITIES.contains pri) then
    (.badRequest invalidPriorityMsg, db)
  else
    match findBoard db userId with
    | none => (.notFound "No board found for your account", db)
    | some _ => (.serverError "Failed to create task", db)

/-- The request body of PATCH `/tasks/:id`.  An outer `none` stands for an
absent property (`undefined`), which the handler skips.  Requests whose
`assignee_ids` or `tags` value is present but not an array are answered 400
and change nothing; they are outside this request type. -/
structure PatchReq where
  title : Option JVal := none
  description : Option (Option String) := none
  priority : Option String := none
  dueDate : Option (Option String) := none
  assigneeIds : Option (List Nat) := none
  tags : Option (List JVal) := none
  deriving DecidableEq, Repr

/-- The PATCH title rejection condition
(`typeof title !== 'string' || title.trim().length === 0`), applied only
when the property is present. -/
def patchTitleBad : Option JVal → Bool
  | none => false
  | some (JVal.jstr s) => (trimStr s).length == 0
  | some (JVal.jother _) => true

/-- The PATCH priority rejection condition, applied only when present. -/
def patchPriorityBad : Option String → Bool
  | none => false
  | some p => !(VALID_PRIORITIES.contains p)

/-- Does the request carry any of the scalar fields the handler would put
into the UPDATE's SET clause (`updates.length > 1` in the source)? -/
def scalarFieldPresent (req : PatchReq) : Bool :=
  req.title.isSome || req.description.isSome || req.priority.isSome || req.dueDate.isSome

/-- The child-row replacement PATCH performs on the matching task when it
carries `assignee_ids` or `tags`: delete all existing rows, insert the
submitted values (deduplicated by the primary keys, tags trimmed and
blanks skipped).  These DELETE/INSERT statements are valid SQL and run
before the COMMIT.  `column` and `position` are never touched. -/
def applyChildRows (req : PatchReq) (u : TaskRow) : TaskRow :=
  { u with
    assignees := match req.assigneeIds with
      | some l => storedAssignees l
      | none => u.assignees
    tags := match req.tags with
      | some l => storedTags l
      | none => u.tags }

/-- Outcome of PATCH `/tasks/:id`.  There is no success constructor: the
handler's 200 path is unreachable (see `patchTask`). -/
inductive PatchResult where
  | badRequest : String → PatchResult
  | notFound : String → PatchResult
  | serverError : String → PatchResult
  deriving DecidableEq, Repr

/-- HTTP status of a patch outcome. -/
def PatchResult.status : PatchResult → Nat
  | .badRequest _ => 400
  | .notFound _ => 404
  | .serverError _ => 500

/-- PATCH `/tasks/:id` from the tasks router, as it actually executes
against Postgres.  The membership lookup (valid SQL) yields 404, and the
title/priority validations yield 400, all before any write.  After that:
if the request carries any scalar field, the handler runs an UPDATE whose
`RETURNING id, board_id, title, description, column, position, ...` uses
the reserved word `column` unquoted — a syntax error — so the whole
transaction (including any child-row replacement that would have followed)
is rolled back and the response is 500 `Failed to update task`.  If the
request carries only `assignee_ids`/`tags` arrays, no UPDATE runs: the
child rows are replaced, the transaction COMMITs, and only then does the
post-commit re-fetch `SELECT ..., column, ... FROM tasks` raise the same
syntax error — the handler still answers 500, but the committed
replacement persists.  No PATCH ever returns 200. -/
def patchTask (db : DB) (userId tid : Nat) (req : PatchReq) : PatchResult × DB :=
  match findAccessible db userId tid with
  | none => (.notFound "Task not found", db)
  | some _ =>
    if patchTitleBad req.title then
      (.badRequest "Title cannot be empty", db)
    else if patchPriorityBad req.priority then
      (.badRequest invalidPriorityMsg, db)
    else if scalarFieldPresent req then
      (.serverError "Failed to update task", db)
    else
      (.serverError "Failed to update task",
       { db with
         tasks := db.tasks.map (fun u => if u.id == tid then applyChildRows req u else u) })

/-- Outcome of DELETE `/tasks/:id`. -/
inductive DeleteResult where
  | notFound : String → DeleteResult
  | ok : DeleteResult
  deriving DecidableEq, Repr

/-- HTTP status of a delete outcome. -/
def DeleteResult.status : DeleteResult → Nat
  | .notFound _ => 404
  | .ok => 200

/-- DELETE `/tasks/:id` from the tasks router: membership-scoped lookup,
then `DELETE FROM tasks WHERE id = $1` (cascade removes child rows). -/
def deleteTask (db : DB) (userId tid : Nat) : DeleteResult × DB :=
  match findAccessible db userId tid with
  | none => (.notFound "Task not found", db)
  | some _ => (.ok, { db with tasks := db.tasks.filter (fun u => u.id != tid) })

/-- The claim vocabulary for "the referenced task exists and is visible to
the caller's board scope". -/
def visibleTo (db : DB) (userId tid : Nat) : Prop :=
  ∃ u ∈ db.tasks, u.id = tid ∧ canAccessBoard db userId u.boardId = true

instance (db : DB) (userId tid : Nat) : Decidable (visibleTo db userId tid) := by
  unfold visibleTo; exact inferInstance

/-- Uniqueness of `tasks.id` (the `SERIAL PRIMARY KEY`). -/
def NodupIds (db : DB) : Prop :=
  (db.tasks.map TaskRow.id).Nodup

instance (db : DB) : Decidable (NodupIds db) := by
  unfold NodupIds; exact inferInstance

/-- Strict lexicographic order on character lists, embedding the text
ordering `ORDER BY` applies to the `column` value (written structurally so
it evaluates in the kernel; the precise collation is irrelevant to every
claim, which only ever compares a column with itself). -/
def strLtB : List Char → List Char → Bool
  | [], [] => false
  | [], _ :: _ => true
  | _ :: _, [] => false
  | c :: cs, d :: ds => if c < d then true else if d < c then false else strLtB cs ds

/-- Strict text order on strings. -/
def strLt (a b : String) : Prop :=
  strLtB a.data b.data = true

/-- The GET `/tasks` ordering relation induced by `ORDER BY t.column,
t.position`: lexicographic on (column, position) and nothing else — in
particular no tie-break for equal positions. -/
def sqlKeyLe (a b : TaskRow) : Prop :=
  strLt a.column b.column ∨ (a.column = b.column ∧ a.position ≤ b.position)

instance (a b : TaskRow) : Decidable (sqlKeyLe a b) := by
  unfold sqlKeyLe strLt; exact inferInstance

/-- The optional `?column=` filter of GET `/tasks`. -/
def colMatch : Option String → TaskRow → Bool
  | some c, t => t.column == c
  | none, _ => true

/-- The row set GET `/tasks` returns for a resolved board: the board's
tasks, optionally restricted to one column. -/
def boardTasks (db : DB) (b : Nat) (colF : Option String) : List TaskRow :=
  db.tasks.filter (fun t => t.boardId == b && colMatch colF t)

/-- GET `/tasks` as a relation between the state and an output sequence:
the SQL engine may return any permutation of the selected rows that is
sorted under the `ORDER BY t.column, t.position` key.  (This is exactly the
guarantee `ORDER BY` gives; rows tied on the key may come back in any
order.) -/
def getTasksOut (db : DB) (userId : Nat) (colF : Option String) (out : List TaskRow) : Prop :=
  ∃ b, findBoard db userId = some b ∧ out.Perm (boardTasks db b colF) ∧ out.Pairwise sqlKeyLe

/-- The deterministic within-column order the specification prescribes for
the placement manager: by `position`, ties broken by `id` (spec §3,
invariant 1). -/
def posLe (a b : TaskRow) : Prop :=
  a.position < b.position ∨ (a.position = b.position ∧ a.id ≤ b.id)

instance (a b : TaskRow) : Decidable (posLe a b) := by
  unfold posLe; exact inferInstance

instance : IsTotal TaskRow posLe where
  total a b := by
    unfold posLe
    rcases lt_trichotomy a.position b.position with h | h | h
    · exact Or.inl (Or.inl h)
    · rcases Nat.le_total a.id b.id with h' | h'
      · exact Or.inl (Or.inr ⟨h, h'⟩)
      · exact Or.inr (Or.inr ⟨h.symm, h'⟩)
    · exact Or.inr (Or.inl h)

instance : IsTrans TaskRow posLe where
  trans a b c hab hbc := by
    unfold posLe at *
    rcases hab with h1 | ⟨h1, h1'⟩ <;> rcases hbc with h2 | ⟨h2, h2'⟩
    · exact Or.inl (h1.trans h2)
    · exact Or.inl (h2 ▸ h1)
    · exact Or.inl (h1 ▸ h2)
    · exact Or.inr ⟨h1.trans h2, h1'.trans h2'⟩

/-- Sorting a list of task rows into the deterministic (position, id)
order. -/
def sortTasks (l : List TaskRow) : List TaskRow :=
  l.insertionSort posLe

/-- The current sequence of one (board, column), in (position, id) order. -/
def columnSeq (db : DB) (b : Nat) (c : String) : List TaskRow :=
  sortTasks (db.tasks.filter (inCol b c))

/-- Insertion at an index (clamping an index past the end to the end). -/
def insertAt {α : Type} (a : α) : Nat → List α → List α
  | 0, l => a :: l
  | _ + 1, [] => [a]
  | n + 1, u :: us => u :: insertAt a n us

/-- Renumbering: place the given rows in the given column with consecutive
integer positions starting at `i`. -/
def assignPos (c : String) : Nat → List TaskRow → List TaskRow
  | _, [] => []
  | i, t :: ts => { t with column := c, position := (i : Int) } :: assignPos c (i + 1) ts

/-- The destination column's current occupants other than the moved task,
in deterministic order. -/
def destOthers (db : DB) (b tid : Nat) (c : String) : List TaskRow :=
  sortTasks (db.tasks.filter (fun u => inCol b c u && u.id != tid))

/-- The fixed capacity of the `today` column (PRD §6.1: "max 3 tasks"). -/
def TODAY_LIMIT : Nat := 3

/-- Outcome of POST `/tasks/:id/move`.  `capacityExceeded` carries the
machine-readable code and the user-facing message. -/
inductive MoveResult where
  | notFound : String → MoveResult
  | invalidColumn : String → MoveResult
  | invalidPos : String → MoveResult
  | capacityExceeded : String → String → MoveResult
  | moved : MoveResult
  deriving DecidableEq, Repr

/-- HTTP status of a move outcome. -/
def MoveResult.status : MoveResult → Nat
  | .notFound _ => 404
  | .invalidColumn _ => 400
  | .invalidPos _ => 400
  | .capacityExceeded _ _ => 409
  | .moved => 200

/-- Modelled from the spec: the accepted-move effect of
`POST /tasks/:id/move`, whose backend handler is absent from the
repository snapshot (the PRD §12 declares the endpoint and the frontend
calls it; only the spec describes the server side).  Following spec §4.1,
the task is inserted at the requested index of the destination column's
current ordering, and both affected columns are renumbered to consecutive
integer positions — one of the two renumbering strategies the spec names —
so siblings keep their relative order. -/
def moveApply (db : DB) (t : TaskRow) (toCol : String) (toPos : Nat) : DB :=
  let newDest := assignPos toCol 1 (insertAt t toPos (destOthers db t.boardId t.id toCol))
  let newSrc :=
    if t.column == toCol then []
    else assignPos t.column 1 (destOthers db t.boardId t.id t.column)
  let keep := db.tasks.filter
    (fun u => !(u.boardId == t.boardId && (u.column == toCol || u.column == t.column)))
  { db with tasks := keep ++ newSrc ++ newDest }

/-- Modelled from the spec: `POST /tasks/:id/move` with body
`{to_column, to_position}`.  The handler is absent from the repository
snapshot, so this follows spec §4.1 — membership-scoped lookup (404),
destination column must be one of the fixed enumeration (400), destination
index must lie within the destination column (400), and a cross-column move
into the capacity-limited `today` column is rejected when it already holds
`TODAY_LIMIT` tasks, with the machine-readable code the frontend
special-cases (`TODAY_LIMIT_REACHED`) and the PRD §6.1 message.  Any
rejection leaves the state untouched. -/
def moveTask (db : DB) (userId tid : Nat) (toCol : String) (toPos : Nat) : MoveResult × DB :=
  match findAccessible db userId tid with
  | none => (.notFound "Task not found", db)
  | some t =>
    if !(VALID_COLUMNS.contains toCol) then
      (.invalidColumn invalidColumnMsg, db)
    else if (destOthers db t.boardId t.id toCol).length < toPos then
      (.invalidPos "Invalid position", db)
    else if toCol == "today" && !(t.column == "today")
        && decide (TODAY_LIMIT ≤ countColumn db t.boardId "today") then
      (.capacityExceeded "TODAY_LIMIT_REACHED" "Today is limited to 3 tasks. Move one out first.", db)
    else
      (.moved, moveApply db t toCol toPos)

/-- A task row with the placement-relevant fields set and neutral metadata,
for concrete test states. -/
def mkTask (i b : Nat) (c : String) (p : Int) : TaskRow :=
  { id := i, boardId := b, title := "T", description := none, column := c,
    position := p, priority := "normal", dueDate := none, assignees := [], tags := [] }

/-- One board (id 1) owned by account 1. -/
def baseBoards : List BoardRow := [{ id := 1, accountId := 1 }]

/-- User 1 is a member of account 1. -/
def baseMembers : List (Nat × Nat) := [(1, 1)]

/-- Concrete state for the capacity scenarios: `today` already holds tasks
1, 2, 3 and task 4 sits in `inbox`. -/
def todayFullDb : DB :=
  { boards := baseBoards, members := baseMembers,
    tasks := [mkTask 1 1 "today" 1, mkTask 2 1 "today" 2, mkTask 3 1 "today" 3,
              mkTask 4 1 "inbox" 1],
    nextTaskId := 5 }

/-- Concrete state for scenario B: `inbox` holds tasks 1, 2, 3 (A, B, C)
in that order. -/
def scenBDb : DB :=
  { boards := baseBoards, members := baseMembers,
    tasks := [mkTask 1 1 "inbox" 1, mkTask 2 1 "inbox" 2, mkTask 3 1 "inbox" 3],
    nextTaskId := 4 }

/-- Concrete state with two `inbox` tasks tied at position 0 (the schema
default), distinguished only by id. -/
def tieDb : DB :=
  { boards := baseBoards, members := baseMembers,
    tasks := [mkTask 1 1 "inbox" 0, mkTask 2 1 "inbox" 0],
    nextTaskId := 3 }

/-- Concrete state with two `inbox` tasks at distinct positions. -/
def distinctPosDb : DB :=
  { boards := baseBoards, members := baseMembers,
    tasks := [mkTask 1 1 "inbox" 1, mkTask 2 1 "inbox" 2],
    nextTaskId := 3 }

/-- The state after the scenario-B move (task 3 to index 0 of `inbox`). -/
def c2db1 : DB := (moveTask scenBDb 1 3 "inbox" 0).2

/-- Tag payload for the C10 witness. -/
def c10tags : List JVal :=
  [JVal.jstr " a", JVal.jstr "a ", JVal.jother true, JVal.jstr "  ", JVal.jstr "b"]

/-- Assignee payload for the C10 witness. -/
def c10ids : List Nat := [7, 7, 8]

/-- Patch request used in the C10 witness. -/
def c10req : PatchReq := { tags := some c10tags, assigneeIds := some c10ids }

/-- Patch request mixing a scalar field with tag and assignee arrays: the
scalar UPDATE's syntax error rolls the whole transaction back. -/
def c10mixedReq : PatchReq :=
  { title := some (JVal.jstr "x"), tags := some c10tags, assigneeIds := some c10ids }

/-- The state after the child-rows-only C10 patch: the replacement is
committed even though the response is 500. -/
def c10db1 : DB :=
  { scenBDb with
    tasks := [{ mkTask 1 1 "inbox" 1 with tags := ["a", "b"], assignees := [7, 8] },
              mkTask 2 1 "inbox" 2, mkTask 3 1 "inbox" 3] }

/-- Valid create request used for claims C3 and C4. -/
def c3req : CreateReq := { title := some (JVal.jstr "  hello  ") }

/-- Whitespace-only-title request used for claim C9. -/
def c9badReq : CreateReq := { title := some (JVal.jstr "   ") }

/-- Untrimmed valid-title request used for claim C9. -/
def c9goodReq : CreateReq := { title := some (JVal.jstr "  x ") }

/-- Create request targeting the full `today` column (claims C1 and C4). -/
def c4req : CreateReq := { title := some (JVal.jstr "T4"), column := some "today" }

/-- A second create request targeting the full `today` column, used by the
C1 counterexample. -/
def c1req : CreateReq := { title := some (JVal.jstr "T5"), column := some "today" }

/-- Create request with an invalid column, for the C8 witness. -/
def c8req : CreateReq := { title := some (JVal.jstr "x"), column := some "doing" }

theorem sorted_perm_unique {α : Type} {r : α → α → Prop} :
    ∀ (l₁ l₂ : List α), l₁.Perm l₂ → l₁.Pairwise r → l₂.Pairwise r →
      (∀ a ∈ l₁, ∀ b ∈ l₁, r a b → r b a → a = b) → l₁ = l₂ := by
  intro l₁
  induction l₁ with
  | nil => intro l₂ p _ _ _; exact p.nil_eq
  | cons a t₁ ih =>
    intro l₂ p s₁ s₂ anti
    cases l₂ with
    | nil => exact absurd p.symm.nil_eq (by simp)
    | cons b t₂ =>
      have hab : a = b := by
        have hamem : a ∈ b :: t₂ := p.mem_iff.mp (List.mem_cons_self a t₁)
        rcases List.mem_cons.mp hamem with h | hat2
        · exact h
        · have hbmem : b ∈ a :: t₁ := p.mem_iff.mpr (List.mem_cons_self b t₂)
          rcases List.mem_cons.mp hbmem with h | hbt1
          · exact h.symm
          · have hrab : r a b := (List.pairwise_cons.mp s₁).1 b hbt1
            have hrba : r b a := (List.pairwise_cons.mp s₂).1 a hat2
            exact anti a (List.mem_cons_self a t₁) b (List.mem_cons.mpr (Or.inr hbt1)) hrab hrba
      subst hab
      have p' : t₁.Perm t₂ := p.cons_inv
      have ht := ih t₂ p' (List.pairwise_cons.mp s₁).2 (List.pairwise_cons.mp s₂).2
        (fun x hx y hy hxy hyx =>
          anti x (List.mem_cons.mpr (Or.inr hx)) y (List.mem_cons.mpr (Or.inr hy)) hxy hyx)
      rw [ht]

/-- Claim C8: a create or move whose target column is outside the fixed
enumeration {goals, inbox, today, wait, finished, someday} is rejected
with HTTP 400 whose message names the valid columns, and no task is
created or modified. -/
theorem invalid_column_rejected (db : DB) (userId : Nat) (req : CreateReq)
    (tid toPos : Nat) (toCol : String) (t : TaskRow)
    (ht : titleInvalid req.title = false)
    (hcol : VALID_COLUMNS.contains (req.column.getD "inbox") = false)
    (hacc : findAccessible db userId tid = some t)
    (hcol2 : VALID_COLUMNS.contains toCol = false) :
    createTask db userId req = (CreateResult.badRequest invalidColumnMsg, db)
    ∧ (CreateResult.badRequest invalidColumnMsg).status = 400
    ∧ moveTask db userId tid toCol toPos = (MoveResult.invalidColumn invalidColumnMsg, db)
    ∧ (MoveResult.invalidColumn invalidColumnMsg).status = 400
    ∧ invalidColumnMsg
        = "Invalid column. Must be one of: goals, inbox, today, wait, finished, someday" := by
  have hcol' : ¬(req.column.getD "inbox" ∈ VALID_COLUMNS) := by simpa using hcol
  have hcol2' : ¬(toCol ∈ VALID_COLUMNS) := by simpa using hcol2
  refine ⟨?_, rfl, ?_, rfl, by decide⟩
  · simp [createTask, ht, hcol']
  · simp [moveTask, hacc, hcol2']

/-- Witness for `invalid_column_rejected`: column `doing` is rejected for
both create and move on a concrete state. -/
theorem invalid_column_rejected_witness :
    createTask scenBDb 1 c8req = (CreateResult.badRequest invalidColumnMsg, scenBDb)
    ∧ moveTask scenBDb 1 1 "doing" 0 = (MoveResult.invalidColumn invalidColumnMsg, scenBDb) := by
  have h := invalid_column_rejected scenBDb 1 c8req 1 0 "doing" (mkTask 1 1 "inbox" 1)
    (by decide) (by decide) (by decide) (by decide)
  exact ⟨h.1, h.2.2.1⟩

/-- Claim C6: PATCH `/tasks/:id` never changes any task's placement —
whatever the request and outcome, every task's (id, column, position)
triple is exactly what it was before the call.  (The SET clause built by
the handler never mentions `column` or `position` — and in fact the
scalar UPDATE never executes at all, rolling back instead — while the
child-row replacement touches only `task_assignees`/`task_tags` of the
matching task.) -/
theorem patch_preserves_placement (db : DB) (userId tid : Nat) (req : PatchReq) :
    (patchTask db userId tid req).2.tasks.map (fun u => (u.id, u.column, u.position))
      = db.tasks.map (fun u => (u.id, u.column, u.position)) := by
  unfold patchTask
  cases hf : findAccessible db userId tid with
  | none => rfl
  | some t =>
    by_cases h1 : patchTitleBad req.title = true
    · rw [if_pos h1]
    · rw [if_neg h1]
      by_cases h2 : patchPriorityBad req.priority = true
      · rw [if_pos h2]
      · rw [if_neg h2]
        by_cases h3 : scalarFieldPresent req = true
        · rw [if_pos h3]
        · rw [if_neg h3]
          simp only [List.map_map]
          apply List.map_eq_map_iff.mpr
          intro u _
          by_cases hid : (u.id == tid) = true <;> simp [Function.comp, hid, applyChildRows]

/-- Claim C7: a PATCH or DELETE whose task id does not resolve to a task
on a board of an account the caller belongs to is answered 404 (Not Found,
distinct from the 400-class validation errors) and changes nothing. -/
theorem missing_task_not_found (db : DB) (userId tid : Nat) (req : PatchReq)
    (h : ¬ visibleTo db userId tid) :
    patchTask db userId tid req = (PatchResult.notFound "Task not found", db)
    ∧ (PatchResult.notFound "Task not found").status = 404
    ∧ deleteTask db userId tid = (DeleteResult.notFound "Task not found", db)
    ∧ (DeleteResult.notFound "Task not found").status = 404 := by
  have hf : findAccessible db userId tid = none := by
    apply List.find?_eq_none.mpr
    intro u hu hcontra
    rw [Bool.and_eq_true] at hcontra
    exact h ⟨u, hu, beq_iff_eq.mp hcontra.1, hcontra.2⟩
  refine ⟨?_, rfl, ?_, rfl⟩
  · unfold patchTask
    rw [hf]
  · unfold deleteTask
    rw [hf]

/-- Witness for `missing_task_not_found`: task 9 does not exist in the
concrete state, so PATCH and DELETE both answer 404 without changes. -/
theorem missing_task_not_found_witness :
    patchTask scenBDb 1 9 {} = (PatchResult.notFound "Task not found", scenBDb)
    ∧ deleteTask scenBDb 1 9 = (DeleteResult.notFound "Task not found", scenBDb) := by
  have h := missing_task_not_found scenBDb 1 9 {} (by decide)
  exact ⟨h.1, h.2.2.1⟩

theorem strLtB_asymm_aux :
    ∀ (l m : List Char), strLtB l m = true → strLtB m l = true → False
  | [], [], h, _ => by simp [strLtB] at h
  | [], _ :: _, _, h' => by simp [strLtB] at h'
  | _ :: _, [], h, _ => by simp [strLtB] at h
  | c :: cs, d :: ds, h, h' => by
    simp only [strLtB] at h h'
    rcases lt_trichotomy c d with hcd | hcd | hcd
    · rw [if_pos hcd] at h
      rw [if_neg (lt_asymm hcd), if_pos hcd] at h'
      exact absurd h' (by simp)
    · subst hcd
      rw [if_neg (lt_irrefl c), if_neg (lt_irrefl c)] at h h'
      exact strLtB_asymm_aux cs ds h h'
    · rw [if_neg (lt_asymm hcd), if_pos hcd] at h
      exact absurd h (by simp)

theorem strLt_asymm {a b : String} (h : strLt a b) : ¬ strLt b a :=
  fun h' => strLtB_asymm_aux a.data b.data h h'

theorem strLt_irrefl (a : String) : ¬ strLt a a := fun h => strLtB_asymm_aux a.data a.data h h

/-- Claim C5 counterexample: with two tasks tied at the same (column,
position) pair — distinguished only by id — both orders satisfy the
`ORDER BY t.column, t.position` contract of GET `/tasks`, so the claimed
deterministic total order with an id tie-break does not exist in the code:
the returned sequence is not determined by the state. -/
theorem get_order_tie_not_deterministic :
    getTasksOut tieDb 1 none [mkTask 1 1 "inbox" 0, mkTask 2 1 "inbox" 0]
    ∧ getTasksOut tieDb 1 none [mkTask 2 1 "inbox" 0, mkTask 1 1 "inbox" 0]
    ∧ ([mkTask 1 1 "inbox" 0, mkTask 2 1 "inbox" 0]
        ≠ [mkTask 2 1 "inbox" 0, mkTask 1 1 "inbox" 0])
    ∧ ¬(∀ out₁ out₂ : List TaskRow,
          getTasksOut tieDb 1 none out₁ → getTasksOut tieDb 1 none out₂ → out₁ = out₂) := by
  have h1 : getTasksOut tieDb 1 none [mkTask 1 1 "inbox" 0, mkTask 2 1 "inbox" 0] :=
    ⟨1, rfl, by decide, by decide⟩
  have h2 : getTasksOut tieDb 1 none [mkTask 2 1 "inbox" 0, mkTask 1 1 "inbox" 0] :=
    ⟨1, rfl, by decide, by decide⟩
  refine ⟨h1, h2, by decide, ?_⟩
  intro hdet
  exact absurd (hdet _ _ h1 h2) (by decide)

/-- Claim C5 amended: GET `/tasks` sorts by the key (column, position)
only, with no id tie-break; whenever the board's tasks carry pairwise
distinct keys — in particular distinct positions within each column, which
holds for every state produced by the creation path alone — the output
sequence is uniquely determined, so two fetches without an intervening
mutation return the same order.  With tied keys the relative order of the
tied rows is unspecified. -/
theorem get_order_deterministic_without_ties (db : DB) (userId : Nat) (colF : Option String)
    (out₁ out₂ : List TaskRow)
    (hinj : ∀ a ∈ db.tasks, ∀ b ∈ db.tasks,
        a.column = b.column → a.position = b.position → a = b)
    (h1 : getTasksOut db userId colF out₁) (h2 : getTasksOut db userId colF out₂) :
    out₁ = out₂ := by
  obtain ⟨b1, hb1, hp1, hs1⟩ := h1
  obtain ⟨b2, hb2, hp2, hs2⟩ := h2
  rw [hb1] at hb2
  injection hb2 with hb
  subst hb
  apply sorted_perm_unique out₁ out₂ (hp1.trans hp2.symm) hs1 hs2
  intro a ha c hc hac hca
  have ha' := hp1.mem_iff.mp ha
  have hc' := hp1.mem_iff.mp hc
  have haT := (List.mem_filter.mp ha').1
  have hcT := (List.mem_filter.mp hc').1
  rcases hac with h | ⟨hcol, hle⟩
  · rcases hca with h' | ⟨hcol', _⟩
    · exact absurd h' (strLt_asymm h)
    · rw [hcol'] at h
      exact absurd h (strLt_irrefl _)
  · rcases hca with h' | ⟨_, hle'⟩
    · rw [hcol] at h'
      exact absurd h' (strLt_irrefl _)
    · exact hinj a haT c hcT hcol (le_antisymm hle hle')

/-- Witness for `get_order_deterministic_without_ties`: on a concrete
state with distinct positions, the sorted output is unique. -/
theorem get_order_deterministic_without_ties_witness :
    getTasksOut distinctPosDb 1 none [mkTask 1 1 "inbox" 1, mkTask 2 1 "inbox" 2]
    ∧ (∀ out₂ : List TaskRow,
        getTasksOut distinctPosDb 1 none out₂ →
          [mkTask 1 1 "inbox" 1, mkTask 2 1 "inbox" 2] = out₂) := by
  have hout : getTasksOut distinctPosDb 1 none [mkTask 1 1 "inbox" 1, mkTask 2 1 "inbox" 2] :=
    ⟨1, rfl, by decide, by decide⟩
  exact ⟨hout, fun out₂ h2 =>
    get_order_deterministic_without_ties distinctPosDb 1 none _ out₂ (by decide) hout h2⟩

theorem insertAt_perm {α : Type} (a : α) :
    ∀ (n : Nat) (l : List α), (insertAt a n l).Perm (a :: l)
  | 0, l => by simp [insertAt]
  | n + 1, [] => by simp [insertAt]
  | n + 1, u :: us => by
    simp only [insertAt]
    exact ((insertAt_perm a n us).cons u).trans (List.Perm.swap a u us)

theorem insertAt_length {α : Type} (a : α) :
    ∀ (n : Nat) (l : List α), (insertAt a n l).length = l.length + 1 := by
  intro n l
  exact (insertAt_perm a n l).length_eq

theorem map_insertAt {α β : Type} (f : α → β) (a : α) :
    ∀ (n : Nat) (l : List α), (insertAt a n l).map f = insertAt (f a) n (l.map f)
  | 0, l => rfl
  | n + 1, [] => rfl
  | n + 1, u :: us => by
    simp only [insertAt, List.map_cons]
    rw [map_insertAt f a n us]

theorem mem_insertAt {α : Type} (a : α) :
    ∀ (n : Nat) (l : List α) (x : α), x ∈ insertAt a n l ↔ x = a ∨ x ∈ l := by
  intro n l x
  rw [(insertAt_perm a n l).mem_iff]
  simp

theorem assignPos_map_id (c : String) :
    ∀ (i : Nat) (l : List TaskRow), (assignPos c i l).map TaskRow.id = l.map TaskRow.id
  | _, [] => rfl
  | i, t :: ts => by
    simp only [assignPos, List.map_cons]
    rw [assignPos_map_id c (i + 1) ts]

theorem assignPos_length (c : String) :
    ∀ (i : Nat) (l : List TaskRow), (assignPos c i l).length = l.length
  | _, [] => rfl
  | i, t :: ts => by
    simp only [assignPos, List.length_cons]
    rw [assignPos_length c (i + 1) ts]

theorem mem_assignPos (c : String) :
    ∀ (i : Nat) (l : List TaskRow) (u : TaskRow), u ∈ assignPos c i l →
      u.column = c ∧ ∃ w ∈ l, u.id = w.id ∧ u.boardId = w.boardId
  | _, [], u, h => by simp [assignPos] at h
  | i, t :: ts, u, h => by
    simp only [assignPos, List.mem_cons] at h
    rcases h with rfl | h
    · exact ⟨rfl, t, List.mem_cons_self t ts, rfl, rfl⟩
    · obtain ⟨hc, w, hw, h1, h2⟩ := mem_assignPos c (i + 1) ts u h
      exact ⟨hc, w, List.mem_cons_of_mem t hw, h1, h2⟩

theorem assignPos_pos_ge (c : String) :
    ∀ (i : Nat) (l : List TaskRow) (u : TaskRow), u ∈ assignPos c i l → (i : Int) ≤ u.position
  | _, [], u, h => by simp [assignPos] at h
  | i, t :: ts, u, h => by
    simp only [assignPos, List.mem_cons] at h
    rcases h with rfl | h
    · exact le_refl _
    · have := assignPos_pos_ge c (i + 1) ts u h
      have hcast : ((i : Int) + 1) = ((i + 1 : Nat) : Int) := by push_cast; ring
      omega

theorem assignPos_pairwise_lt (c : String) :
    ∀ (i : Nat) (l : List TaskRow),
      (assignPos c i l).Pairwise (fun a b => a.position < b.position)
  | _, [] => List.Pairwise.nil
  | i, t :: ts => by
    simp only [assignPos]
    refine List.pairwise_cons.mpr ⟨?_, assignPos_pairwise_lt c (i + 1) ts⟩
    intro u hu
    have := assignPos_pos_ge c (i + 1) ts u hu
    simp only
    push_cast at this ⊢
    omega

theorem sortTasks_perm (l : List TaskRow) : (sortTasks l).Perm l :=
  List.perm_insertionSort posLe l

theorem sortTasks_pairwise (l : List TaskRow) : (sortTasks l).Pairwise posLe :=
  List.sorted_insertionSort posLe l

theorem sortTasks_length (l : List TaskRow) : (sortTasks l).length = l.length :=
  (sortTasks_perm l).length_eq

theorem posLe_antisymm_on {l : List TaskRow} (hn : (l.map TaskRow.id).Nodup) :
    ∀ a ∈ l, ∀ b ∈ l, posLe a b → posLe b a → a = b := by
  intro a ha b hb hab hba
  have hpos : a.position = b.position := by
    rcases hab with h | ⟨h, _⟩ <;> rcases hba with h' | ⟨h', _⟩ <;> omega
  have hid : a.id = b.id := by
    rcases hab with h | ⟨_, h2⟩ <;> rcases hba with h' | ⟨_, h2'⟩ <;> omega
  exact List.inj_on_of_nodup_map hn ha hb hid

theorem sortTasks_eq_self {l : List TaskRow}
    (hs : l.Pairwise posLe)
    (hanti : ∀ a ∈ l, ∀ b ∈ l, posLe a b → posLe b a → a = b) : sortTasks l = l := by
  apply sorted_perm_unique (sortTasks l) l (sortTasks_perm l) (sortTasks_pairwise l) hs
  intro a ha b hb
  exact hanti a ((sortTasks_perm l).mem_iff.mp ha) b ((sortTasks_perm l).mem_iff.mp hb)

theorem sortTasks_filter {l : List TaskRow} (p : TaskRow → Bool)
    (hn : (l.map TaskRow.id).Nodup) :
    sortTasks (l.filter p) = (sortTasks l).filter p := by
  have hnf : ((l.filter p).map TaskRow.id).Nodup :=
    ((List.filter_sublist l).map TaskRow.id).nodup hn
  apply sorted_perm_unique _ _
    ((sortTasks_perm (l.filter p)).trans ((sortTasks_perm l).filter p).symm)
    (sortTasks_pairwise (l.filter p)) ((sortTasks_pairwise l).filter p)
  intro a ha b hb
  exact posLe_antisymm_on hnf a ((sortTasks_perm _).mem_iff.mp ha) b
    ((sortTasks_perm _).mem_iff.mp hb)

theorem map_filter_comm {α β : Type} (f : α → β) (p : β → Bool) :
    ∀ (l : List α), (l.filter (fun a => p (f a))).map f = (l.map f).filter p
  | [] => rfl
  | a :: l => by
    simp only [List.filter_cons, List.map_cons]
    cases h : p (f a) with
    | true => simp [h, map_filter_comm f p l]
    | false => simp [h, map_filter_comm f p l]

theorem length_filter_map {α : Type} (g : α → α) (p : α → Bool)
    (hp : ∀ u, p (g u) = p u) :
    ∀ l : List α, ((l.map g).filter p).length = (l.filter p).length
  | [] => rfl
  | a :: l => by
    simp only [List.map_cons, List.filter_cons, hp a]
    cases h : p a <;> simp [h, length_filter_map g p hp l]

theorem findAccessible_some {db : DB} {userId tid : Nat} {t : TaskRow}
    (h : findAccessible db userId tid = some t) : t ∈ db.tasks ∧ t.id = tid := by
  refine ⟨List.mem_of_find?_eq_some h, ?_⟩
  have hp := List.find?_some h
  rw [Bool.and_eq_true] at hp
  exact beq_iff_eq.mp hp.1

theorem length_filter_ne_id :
    ∀ (l : List TaskRow) (t : TaskRow), t ∈ l → (l.map TaskRow.id).Nodup →
      (l.filter (fun u => u.id != t.id)).length + 1 = l.length
  | [], t, ht, _ => absurd ht (List.not_mem_nil t)
  | u :: us, t, ht, hn => by
    rw [List.map_cons, List.nodup_cons] at hn
    rcases List.mem_cons.mp ht with rfl | ht'
    · have hrest : us.filter (fun v => v.id != t.id) = us := by
        apply List.filter_eq_self.mpr
        intro v hv
        have hne : v.id ≠ t.id := fun he =>
          hn.1 (he ▸ List.mem_map_of_mem TaskRow.id hv)
        simpa using hne
      simp [List.filter_cons, hrest]
    · have hid : u.id ≠ t.id := fun he =>
        hn.1 (he ▸ List.mem_map_of_mem TaskRow.id ht')
      have ih := length_filter_ne_id us t ht' hn.2
      simp only [List.filter_cons]
      rw [if_pos (by simpa using hid)]
      simp only [List.length_cons]
      omega

theorem nodup_ids_filter {l : List TaskRow} (p : TaskRow → Bool)
    (hn : (l.map TaskRow.id).Nodup) : ((l.filter p).map TaskRow.id).Nodup :=
  ((List.filter_sublist l).map TaskRow.id).nodup hn

theorem nodup_ids_sortTasks {l : List TaskRow} (hn : (l.map TaskRow.id).Nodup) :
    ((sortTasks l).map TaskRow.id).Nodup :=
  (((sortTasks_perm l).map TaskRow.id).symm).nodup hn

theorem mem_destOthers {db : DB} {b tid : Nat} {c : String} {u : TaskRow}
    (h : u ∈ destOthers db b tid c) :
    u ∈ db.tasks ∧ u.boardId = b ∧ u.column = c ∧ u.id ≠ tid := by
  unfold destOthers at h
  have h' := (sortTasks_perm _).mem_iff.mp h
  have hm := List.mem_filter.mp h'
  rcases hm with ⟨hmem, hpred⟩
  rw [Bool.and_eq_true] at hpred
  obtain ⟨hic, hne⟩ := hpred
  rw [inCol, Bool.and_eq_true] at hic
  exact ⟨hmem, beq_iff_eq.mp hic.1, beq_iff_eq.mp hic.2, by simpa using hne⟩

theorem destOthers_eq_filter (db : DB) (b tid : Nat) (c : String) (hn : NodupIds db) :
    destOthers db b tid c = (columnSeq db b c).filter (fun u => u.id != tid) := by
  unfold destOthers columnSeq
  have hcomm : db.tasks.filter (fun u => inCol b c u && u.id != tid)
      = (db.tasks.filter (inCol b c)).filter (fun u => u.id != tid) := by
    rw [List.filter_filter]
    apply List.filter_congr
    intro u _
    exact Bool.and_comm _ _
  rw [hcomm, sortTasks_filter _ (nodup_ids_filter (inCol b c) hn)]

theorem nodup_ids_destOthers (db : DB) (b tid : Nat) (c : String) (hn : NodupIds db) :
    ((destOthers db b tid c).map TaskRow.id).Nodup :=
  nodup_ids_sortTasks (nodup_ids_filter _ hn)

theorem tid_not_mem_destOthers (db : DB) (b tid : Nat) (c : String) :
    tid ∉ (destOthers db b tid c).map TaskRow.id := by
  intro h
  obtain ⟨u, hu, huid⟩ := List.mem_map.mp h
  exact (mem_destOthers hu).2.2.2 huid

theorem moveTask_moved {db : DB} {userId tid : Nat} {toCol : String} {toPos : Nat} {db' : DB}
    (h : moveTask db userId tid toCol toPos = (MoveResult.moved, db')) :
    ∃ t, findAccessible db userId tid = some t
      ∧ VALID_COLUMNS.contains toCol = true
      ∧ toPos ≤ (destOthers db t.boardId t.id toCol).length
      ∧ (toCol = "today" → t.column ≠ "today" →
          countColumn db t.boardId "today" < TODAY_LIMIT)
      ∧ db' = moveApply db t toCol toPos := by
  unfold moveTask at h
  cases hf : findAccessible db userId tid with
  | none => rw [hf] at h; simp at h
  | some t =>
    rw [hf] at h
    cases hcol : VALID_COLUMNS.contains toCol with
    | false => rw [hcol] at h; simp at h
    | true =>
      rw [hcol] at h
      simp only [Bool.not_true, Bool.false_eq_true, if_false] at h
      by_cases hpos : (destOthers db t.boardId t.id toCol).length < toPos
      · rw [if_pos hpos] at h; simp at h
      · rw [if_neg hpos] at h
        cases hcap : (toCol == "today" && !(t.column == "today")
            && decide (TODAY_LIMIT ≤ countColumn db t.boardId "today")) with
        | true => rw [hcap] at h; simp at h
        | false =>
          rw [hcap] at h
          simp only [Bool.false_eq_true, if_false] at h
          injection h with h1 h2
          refine ⟨t, rfl, rfl, by omega, ?_, h2.symm⟩
          intro hc1 hc2
          rw [Bool.and_eq_false_iff, Bool.and_eq_false_iff] at hcap
          rcases hcap with (hx | hx) | hx
          · exact absurd (beq_iff_eq.mpr hc1) (by simp [hx])
          · simp at hx
            exact absurd hx hc2
          · have := of_decide_eq_false hx
            omega

theorem columnSeq_moveApply_dest (db : DB) (t : TaskRow) (toCol : String) (toPos : Nat)
    (hn : NodupIds db) :
    columnSeq (moveApply db t toCol toPos) t.boardId toCol
      = assignPos toCol 1 (insertAt t toPos (destOthers db t.boardId t.id toCol)) := by
  unfold columnSeq
  simp only [moveApply]
  rw [List.filter_append, List.filter_append]
  have h1 : (db.tasks.filter (fun u => !(u.boardId == t.boardId
      && (u.column == toCol || u.column == t.column)))).filter (inCol t.boardId toCol) = [] := by
    rw [List.filter_filter]
    apply List.filter_eq_nil_iff.mpr
    intro u _ hcontra
    rw [Bool.and_eq_true] at hcontra
    obtain ⟨hq, hkp⟩ := hcontra
    rw [inCol, Bool.and_eq_true] at hq
    rw [hq.1, hq.2] at hkp
    simp at hkp
  have h2 : ((if (t.column == toCol) = true then ([] : List TaskRow)
      else assignPos t.column 1 (destOthers db t.boardId t.id t.column)).filter
        (inCol t.boardId toCol)) = [] := by
    split
    · rfl
    · rename_i hne
      apply List.filter_eq_nil_iff.mpr
      intro u hu hcontra
      obtain ⟨hc, -⟩ := mem_assignPos _ _ _ u hu
      rw [inCol, Bool.and_eq_true] at hcontra
      have heq : t.column = toCol := by rw [← hc]; exact beq_iff_eq.mp hcontra.2
      exact hne (by simp [heq])
  have h3 : (assignPos toCol 1 (insertAt t toPos (destOthers db t.boardId t.id toCol))).filter
      (inCol t.boardId toCol)
      = assignPos toCol 1 (insertAt t toPos (destOthers db t.boardId t.id toCol)) := by
    apply List.filter_eq_self.mpr
    intro u hu
    obtain ⟨hc, w, hw, hid, hb⟩ := mem_assignPos _ _ _ u hu
    have hwb : w.boardId = t.boardId := by
      rcases (mem_insertAt t toPos _ w).mp hw with rfl | hw'
      · rfl
      · exact (mem_destOthers hw').2.1
    rw [inCol, hb, hwb, hc]
    simp
  rw [h1, h2, h3, List.nil_append, List.nil_append]
  apply sortTasks_eq_self
  · exact (assignPos_pairwise_lt toCol 1 _).imp (fun h => Or.inl h)
  · apply posLe_antisymm_on
    rw [assignPos_map_id, map_insertAt]
    apply ((insertAt_perm t.id toPos
      ((destOthers db t.boardId t.id toCol).map TaskRow.id)).symm).nodup
    rw [List.nodup_cons]
    exact ⟨tid_not_mem_destOthers db t.boardId t.id toCol,
      nodup_ids_destOthers db t.boardId t.id toCol hn⟩

theorem columnSeq_moveApply_src (db : DB) (t : TaskRow) (toCol : String) (toPos : Nat)
    (hn : NodupIds db) (hne : (t.column == toCol) = false) :
    columnSeq (moveApply db t toCol toPos) t.boardId t.column
      = assignPos t.column 1 (destOthers db t.boardId t.id t.column) := by
  unfold columnSeq
  simp only [moveApply, hne, Bool.false_eq_true, if_false]
  rw [List.filter_append, List.filter_append]
  have h1 : (db.tasks.filter (fun u => !(u.boardId == t.boardId
      && (u.column == toCol || u.column == t.column)))).filter (inCol t.boardId t.column)
      = [] := by
    rw [List.filter_filter]
    apply List.filter_eq_nil_iff.mpr
    intro u _ hcontra
    rw [Bool.and_eq_true] at hcontra
    obtain ⟨hq, hkp⟩ := hcontra
    rw [inCol, Bool.and_eq_true] at hq
    rw [hq.1, hq.2] at hkp
    simp at hkp
  have h2 : (assignPos t.column 1 (destOthers db t.boardId t.id t.column)).filter
      (inCol t.boardId t.column)
      = assignPos t.column 1 (destOthers db t.boardId t.id t.column) := by
    apply List.filter_eq_self.mpr
    intro u hu
    obtain ⟨hc, w, hw, hid, hb⟩ := mem_assignPos _ _ _ u hu
    have hwb : w.boardId = t.boardId := (mem_destOthers hw).2.1
    rw [inCol, hb, hwb, hc]
    simp
  have h3 : (assignPos toCol 1 (insertAt t toPos (destOthers db t.boardId t.id toCol))).filter
      (inCol t.boardId t.column) = [] := by
    apply List.filter_eq_nil_iff.mpr
    intro u hu hcontra
    obtain ⟨hc, -⟩ := mem_assignPos _ _ _ u hu
    rw [inCol, Bool.and_eq_true] at hcontra
    have heq : t.column = toCol := by rw [← (beq_iff_eq.mp hcontra.2), hc]
    exact absurd (beq_iff_eq.mpr heq) (by simp [hne])
  rw [h1, h2, h3, List.nil_append, List.append_nil]
  apply sortTasks_eq_self
  · exact (assignPos_pairwise_lt t.column 1 _).imp (fun h => Or.inl h)
  · apply posLe_antisymm_on
    rw [assignPos_map_id]
    exact nodup_ids_destOthers db t.boardId t.id t.column hn

theorem moveApply_sets_column (db : DB) (t : TaskRow) (toCol : String) (toPos : Nat)
    (hn : NodupIds db) (htm : t ∈ db.tasks) :
    ∀ u ∈ (moveApply db t toCol toPos).tasks, u.id = t.id → u.column = toCol := by
  intro u hu huid
  simp only [moveApply] at hu
  rw [List.mem_append, List.mem_append] at hu
  rcases hu with (hk | hs) | hd
  · have hmf := List.mem_filter.mp hk
    have hut : u = t := List.inj_on_of_nodup_map hn hmf.1 htm huid
    have hpred := hmf.2
    rw [hut] at hpred
    simp at hpred
  · by_cases hc : (t.column == toCol) = true
    · rw [if_pos hc] at hs
      exact absurd hs (List.not_mem_nil u)
    · rw [if_neg hc] at hs
      obtain ⟨-, w, hw, hwid, -⟩ := mem_assignPos _ _ _ u hs
      have hwne := (mem_destOthers hw).2.2.2
      rw [← hwid, huid] at hwne
      exact absurd rfl hwne
  · exact (mem_assignPos _ _ _ u hd).1

theorem moveApply_other_column (db : DB) (t : TaskRow) (toCol : String) (toPos : Nat)
    (c : String) (hc1 : (toCol == c) = false) (hc2 : (t.column == c) = false) :
    (moveApply db t toCol toPos).tasks.filter (inCol t.boardId c)
      = db.tasks.filter (inCol t.boardId c) := by
  simp only [moveApply]
  rw [List.filter_append, List.filter_append]
  have h2 : ((if (t.column == toCol) = true then ([] : List TaskRow)
      else assignPos t.column 1 (destOthers db t.boardId t.id t.column)).filter
        (inCol t.boardId c)) = [] := by
    split
    · rfl
    · apply List.filter_eq_nil_iff.mpr
      intro u hu hcontra
      obtain ⟨hcc, -⟩ := mem_assignPos _ _ _ u hu
      rw [inCol, Bool.and_eq_true] at hcontra
      have : t.column = c := by rw [← hcc]; exact beq_iff_eq.mp hcontra.2
      exact absurd (beq_iff_eq.mpr this) (by simp [hc2])
  have h3 : (assignPos toCol 1 (insertAt t toPos (destOthers db t.boardId t.id toCol))).filter
      (inCol t.boardId c) = [] := by
    apply List.filter_eq_nil_iff.mpr
    intro u hu hcontra
    obtain ⟨hcc, -⟩ := mem_assignPos _ _ _ u hu
    rw [inCol, Bool.and_eq_true] at hcontra
    have : toCol = c := by rw [← hcc]; exact beq_iff_eq.mp hcontra.2
    exact absurd (beq_iff_eq.mpr this) (by simp [hc1])
  have h1 : (db.tasks.filter (fun u => !(u.boardId == t.boardId
      && (u.column == toCol || u.column == t.column)))).filter (inCol t.boardId c)
      = db.tasks.filter (inCol t.boardId c) := by
    rw [List.filter_filter]
    apply List.filter_congr
    intro u _
    cases hic : inCol t.boardId c u with
    | false => simp
    | true =>
      rw [inCol, Bool.and_eq_true] at hic
      have huc : u.column = c := beq_iff_eq.mp hic.2
      have e1 : (u.column == toCol) = false := by
        cases hb : (u.column == toCol) with
        | false => rfl
        | true =>
          have hce : toCol = c := by rw [← beq_iff_eq.mp hb, huc]
          rw [beq_iff_eq.mpr hce] at hc1
          simp at hc1
      have e2 : (u.column == t.column) = false := by
        cases hb : (u.column == t.column) with
        | false => rfl
        | true =>
          have hce : t.column = c := by rw [← beq_iff_eq.mp hb, huc]
          rw [beq_iff_eq.mpr hce] at hc2
          simp at hc2
      rw [e1, e2]
      simp
  rw [h1, h2, h3, List.append_nil, List.append_nil]

/-- Claim C2 (move modelled from the spec; its backend handler is absent
from the repository snapshot): an accepted `POST /tasks/:id/move` places
the task at the requested index of the destination column — the
destination's id sequence becomes its old sequence minus the task with the
task inserted at the index — while the source column (when different)
keeps its remaining tasks in their old relative order, and the task's
stored column becomes the destination. -/
theorem move_reorders_columns (db : DB) (userId tid : Nat) (toCol : String) (toPos : Nat)
    (t : TaskRow) (db' : DB)
    (hn : NodupIds db)
    (hacc : findAccessible db userId tid = some t)
    (hmv : moveTask db userId tid toCol toPos = (MoveResult.moved, db')) :
    ((columnSeq db' t.boardId toCol).map TaskRow.id
        = insertAt tid toPos (((columnSeq db t.boardId toCol).map TaskRow.id).filter
            (fun i => i != tid)))
    ∧ (t.column ≠ toCol →
        (columnSeq db' t.boardId t.column).map TaskRow.id
          = ((columnSeq db t.boardId t.column).map TaskRow.id).filter (fun i => i != tid))
    ∧ (∀ u ∈ db'.tasks, u.id = tid → u.column = toCol) := by
  obtain ⟨t', hacc', hcolv, hposv, hcap, hdb'⟩ := moveTask_moved hmv
  rw [hacc] at hacc'
  injection hacc' with ht'
  subst ht'
  obtain ⟨htm, htid⟩ := findAccessible_some hacc
  subst hdb'
  refine ⟨?_, ?_, ?_⟩
  · rw [columnSeq_moveApply_dest db t toCol toPos hn, assignPos_map_id, map_insertAt, htid,
      destOthers_eq_filter db t.boardId tid toCol hn,
      map_filter_comm TaskRow.id (fun i => i != tid)]
  · intro hnecol
    have hne : (t.column == toCol) = false := by
      cases hb : (t.column == toCol) with
      | false => rfl
      | true => exact absurd (beq_iff_eq.mp hb) hnecol
    rw [columnSeq_moveApply_src db t toCol toPos hn hne, assignPos_map_id, htid,
      destOthers_eq_filter db t.boardId tid t.column hn,
      map_filter_comm TaskRow.id (fun i => i != tid)]
  · intro u hu huid
    exact moveApply_sets_column db t toCol toPos hn htm u hu (by rw [huid, htid])

theorem countColumn_eq_columnSeq_length (db : DB) (b : Nat) (c : String) :
    countColumn db b c = (columnSeq db b c).length := by
  unfold countColumn columnSeq
  rw [sortTasks_length]

/-- Witness for `move_reorders_columns`: scenario B — `inbox` holds tasks
1, 2, 3 (A, B, C) and moving task 3 to index 0 yields the sequence
[3, 1, 2], preserving the relative order of 1 and 2. -/
theorem move_reorders_columns_witness :
    NodupIds scenBDb
    ∧ findAccessible scenBDb 1 3 = some (mkTask 3 1 "inbox" 3)
    ∧ moveTask scenBDb 1 3 "inbox" 0 = (MoveResult.moved, c2db1)
    ∧ (columnSeq c2db1 1 "inbox").map TaskRow.id = [3, 1, 2] := by
  have h := move_reorders_columns scenBDb 1 3 "inbox" 0 (mkTask 3 1 "inbox" 3) c2db1
    (by decide) (by decide) rfl
  refine ⟨by decide, by decide, rfl, ?_⟩
  exact h.1.trans (by decide)

/-- Claim C1 (amended): the capacity invariant holds over every accepted
operation, and the CapacityExceeded-typed rejection belongs to the move
operation (modelled from the spec; its backend handler is absent from
src/): a cross-column move into `today` when the board already holds
`TODAY_LIMIT` (3) tasks there is rejected with the machine-readable code
`TODAY_LIMIT_REACHED`, returning the state (all task rows, columns and
positions) unchanged, and any accepted move keeps the board's `today`
occupancy at or below the limit.  The remaining operations cannot raise
the count at all: POST `/tasks` never inserts a row (its malformed SQL
fails every validated request with a generic 500 — not a capacity-typed
rejection, which is what the counterexample exhibits), PATCH preserves
every column's population, and DELETE only removes. -/
theorem move_capacity_guard (db : DB) (userId tid toPos : Nat) (t : TaskRow)
    (hn : NodupIds db)
    (hacc : findAccessible db userId tid = some t) :
    (t.column ≠ "today" → TODAY_LIMIT ≤ countColumn db t.boardId "today" →
      toPos ≤ (destOthers db t.boardId t.id "today").length →
      moveTask db userId tid "today" toPos
        = (MoveResult.capacityExceeded "TODAY_LIMIT_REACHED"
            "Today is limited to 3 tasks. Move one out first.", db))
    ∧ (∀ toCol db', countColumn db t.boardId "today" ≤ TODAY_LIMIT →
        moveTask db userId tid toCol toPos = (MoveResult.moved, db') →
        countColumn db' t.boardId "today" ≤ TODAY_LIMIT)
    ∧ (∀ (uid : Nat) (req : CreateReq), (createTask db uid req).2 = db)
    ∧ (∀ (uid tid2 : Nat) (req : PatchReq),
        countColumn (patchTask db uid tid2 req).2 t.boardId "today"
          = countColumn db t.boardId "today")
    ∧ (∀ uid tid2 : Nat,
        countColumn (deleteTask db uid tid2).2 t.boardId "today"
          ≤ countColumn db t.boardId "today") := by
  obtain ⟨htm, htid⟩ := findAccessible_some hacc
  refine ⟨?_, ?_, ?_, ?_, ?_⟩
  · intro hnot htoday hpos
    have hb1 : (t.column == "today") = false := by
      cases hb : (t.column == "today") with
      | false => rfl
      | true => exact absurd (beq_iff_eq.mp hb) hnot
    simp only [moveTask, hacc]
    rw [if_neg (by decide)]
    rw [if_neg (by omega)]
    rw [if_pos (by rw [hb1]; simp [htoday])]
  · intro toCol db' hle hmv
    obtain ⟨t', hacc', hcolv, hposv, hcap, hdb'⟩ := moveTask_moved hmv
    rw [hacc] at hacc'
    injection hacc' with ht'
    subst ht'
    subst hdb'
    by_cases hto : toCol = "today"
    · subst hto
      have e1 : countColumn (moveApply db t "today" toPos) t.boardId "today"
          = (destOthers db t.boardId t.id "today").length + 1 := by
        rw [countColumn_eq_columnSeq_length, columnSeq_moveApply_dest db t "today" toPos hn,
          assignPos_length, insertAt_length]
      by_cases hsrc : t.column = "today"
      · have hmem : t ∈ columnSeq db t.boardId "today" := by
          apply (sortTasks_perm _).mem_iff.mpr
          apply List.mem_filter.mpr
          refine ⟨htm, ?_⟩
          rw [inCol, hsrc]
          simp
        have e2 : (destOthers db t.boardId t.id "today").length + 1
            = countColumn db t.boardId "today" := by
          rw [destOthers_eq_filter db t.boardId t.id "today" hn,
            countColumn_eq_columnSeq_length]
          exact length_filter_ne_id _ t hmem (nodup_ids_sortTasks (nodup_ids_filter _ hn))
        omega
      · have hlt := hcap rfl hsrc
        have e2 : (destOthers db t.boardId t.id "today").length
            = countColumn db t.boardId "today" := by
          rw [destOthers_eq_filter db t.boardId t.id "today" hn,
            countColumn_eq_columnSeq_length]
          rw [show (columnSeq db t.boardId "today").filter (fun u => u.id != t.id)
              = columnSeq db t.boardId "today" from List.filter_eq_self.mpr ?_]
          intro u hu
          have hum := List.mem_filter.mp ((sortTasks_perm _).mem_iff.mp hu)
          have hne : u.id ≠ t.id := by
            intro he
            have hut : u = t := List.inj_on_of_nodup_map hn hum.1 htm he
            have hpred := hum.2
            rw [hut, inCol, Bool.and_eq_true] at hpred
            exact hsrc (beq_iff_eq.mp hpred.2)
          simpa using hne
        omega
    · have hne1 : (toCol == "today") = false := by
        cases hb : (toCol == "today") with
        | false => rfl
        | true => exact absurd (beq_iff_eq.mp hb) hto
      by_cases hsrc : t.column = "today"
      · have hnecol : (t.column == toCol) = false := by
          cases hb : (t.column == toCol) with
          | false => rfl
          | true => exact absurd (by rw [← beq_iff_eq.mp hb, hsrc]) hto
        have hcount : countColumn (moveApply db t toCol toPos) t.boardId "today"
            = (destOthers db t.boardId t.id t.column).length := by
          rw [← hsrc, countColumn_eq_columnSeq_length,
            columnSeq_moveApply_src db t toCol toPos hn hnecol, assignPos_length]
        have hdle : (destOthers db t.boardId t.id t.column).length
            ≤ countColumn db t.boardId "today" := by
          rw [destOthers_eq_filter db t.boardId t.id t.column hn,
            countColumn_eq_columnSeq_length, hsrc]
          exact List.length_filter_le _ _
        rw [hcount]
        omega
      · have hne2 : (t.column == "today") = false := by
          cases hb : (t.column == "today") with
          | false => rfl
          | true => exact absurd (beq_iff_eq.mp hb) hsrc
        unfold countColumn
        rw [moveApply_other_column db t toCol toPos "today" hne1 hne2]
        exact hle

  · intro uid req
    simp only [createTask]
    split
    · rfl
    · split
      · rfl
      · split
        · rfl
        · split <;> rfl
  · intro uid tid2 req
    unfold patchTask
    cases hf : findAccessible db uid tid2 with
    | none => rfl
    | some w =>
      by_cases h1 : patchTitleBad req.title = true
      · rw [if_pos h1]
      · rw [if_neg h1]
        by_cases h2 : patchPriorityBad req.priority = true
        · rw [if_pos h2]
        · rw [if_neg h2]
          by_cases h3 : scalarFieldPresent req = true
          · rw [if_pos h3]
          · rw [if_neg h3]
            unfold countColumn
            exact length_filter_map _ _ (fun u => by
              by_cases hid : (u.id == tid2) = true <;> simp [hid, applyChildRows, inCol]) db.tasks
  · intro uid tid2
    unfold deleteTask
    cases hf : findAccessible db uid tid2 with
    | none => exact le_refl _
    | some w =>
      unfold countColumn
      calc ((db.tasks.filter (fun u => u.id != tid2)).filter (inCol t.boardId "today")).length
          = ((db.tasks.filter (inCol t.boardId "today")).filter
              (fun u => u.id != tid2)).length := by
            rw [List.filter_filter, List.filter_filter]
            congr 1
            apply List.filter_congr
            intro u _
            exact Bool.and_comm _ _
        _ ≤ (db.tasks.filter (inCol t.boardId "today")).length := List.length_filter_le _ _

/-- Witness for `move_capacity_guard`: moving task 4 (in `inbox`) into the
full `today` column of the concrete state is rejected with
`TODAY_LIMIT_REACHED` and the state is unchanged. -/
theorem move_capacity_guard_witness :
    NodupIds todayFullDb
    ∧ moveTask todayFullDb 1 4 "today" 0
        = (MoveResult.capacityExceeded "TODAY_LIMIT_REACHED"
            "Today is limited to 3 tasks. Move one out first.", todayFullDb) := by
  have h := move_capacity_guard todayFullDb 1 4 0 (mkTask 4 1 "inbox" 1) (by decide) (by decide)
  exact ⟨by decide, h.1 (by decide) (by decide) (by decide)⟩

/-- Claim C1 counterexample: the claim requires any operation against the
full `today` column to be rejected with a CapacityExceeded-typed error
carrying a machine-readable code, but a creation targeting the full
column is answered with the generic 500 `Failed to create task` (its SQL
fails before any capacity logic could run) — not a capacity-typed
rejection and with no machine-readable code. -/
theorem today_rejection_not_capacity_typed :
    createTask todayFullDb 1 c1req
      = (CreateResult.serverError "Failed to create task", todayFullDb)
    ∧ (CreateResult.serverError "Failed to create task").status = 500 :=
  ⟨by decide, rfl⟩

/-- Claim C3 (code bug): append-on-create is the evident intent — the
handler computes `COALESCE(MAX(position),0)+1` and inserts with it, and
the schema and PRD presuppose working creation — but the source can never
create a task: every request that passes validation and board resolution
dies at the malformed max-position query (bare reserved word `column`,
which the schema itself must quote), is rolled back, and is answered 500
with no row inserted. -/
theorem create_never_succeeds (db : DB) (userId : Nat) (req : CreateReq) (b : Nat)
    (ht : titleInvalid req.title = false)
    (hcol : VALID_COLUMNS.contains (req.column.getD "inbox") = true)
    (hpri : VALID_PRIORITIES.contains (req.priority.getD "normal") = true)
    (hb : findBoard db userId = some b) :
    createTask db userId req = (CreateResult.serverError "Failed to create task", db)
    ∧ (CreateResult.serverError "Failed to create task").status = 500 := by
  have hcol' : req.column.getD "inbox" ∈ VALID_COLUMNS := by simpa using hcol
  have hpri' : req.priority.getD "normal" ∈ VALID_PRIORITIES := by simpa using hpri
  exact ⟨by simp [createTask, ht, hcol', hpri', hb], rfl⟩

/-- Witness for `create_never_succeeds`: a perfectly valid creation on a
concrete board is answered 500 with the state unchanged. -/
theorem create_never_succeeds_witness :
    titleInvalid c3req.title = false
    ∧ createTask scenBDb 1 c3req
        = (CreateResult.serverError "Failed to create task", scenBDb) :=
  ⟨by decide,
   (create_never_succeeds scenBDb 1 c3req 1 (by decide) (by decide) (by decide) (by decide)).1⟩

/-- Claim C9 (code bug): the rejection half is real — a whitespace-only
title is answered 400 `Title is required` before any SQL runs — but the
"stored title is the trimmed submission" half never happens: the
validated request dies at the malformed max-position query and is
answered 500 with nothing stored (the INSERT that would have stored
`title.trim()` is never reached). -/
theorem create_title_trace :
    createTask scenBDb 1 c9badReq = (CreateResult.badRequest "Title is required", scenBDb)
    ∧ (CreateResult.badRequest "Title is required").status = 400
    ∧ createTask scenBDb 1 c9goodReq
        = (CreateResult.serverError "Failed to create task", scenBDb)
    ∧ (CreateResult.serverError "Failed to create task").status = 500 :=
  ⟨by decide, rfl, by decide, rfl⟩

/-- Claim C4 counterexample: a creation targeting the full `today` column
is not rejected with the capacity condition of `move()` — it is answered
with the generic 500 `Failed to create task`, and the very same 500 is
produced when `today` is empty, showing that no capacity check is
involved and no row is inserted either way. -/
theorem create_into_today_not_capacity_checked :
    createTask todayFullDb 1 c4req
      = (CreateResult.serverError "Failed to create task", todayFullDb)
    ∧ createTask scenBDb 1 c4req
      = (CreateResult.serverError "Failed to create task", scenBDb)
    ∧ (CreateResult.serverError "Failed to create task").status = 500 :=
  ⟨by decide, by decide, rfl⟩

/-- Claim C4 amended: POST `/tasks` applies no capacity check; every
validated creation targeting `today` — whatever its occupancy — fails
with the generic 500 at its malformed SQL, inserts no row, and leaves the
column's occupancy unchanged. -/
theorem create_today_always_500 (db : DB) (userId : Nat) (req : CreateReq) (b : Nat)
    (ht : titleInvalid req.title = false)
    (hcol : req.column = some "today")
    (hpri : VALID_PRIORITIES.contains (req.priority.getD "normal") = true)
    (hb : findBoard db userId = some b) :
    createTask db userId req = (CreateResult.serverError "Failed to create task", db)
    ∧ countColumn (createTask db userId req).2 b "today" = countColumn db b "today" := by
  have hcol' : req.column.getD "inbox" ∈ VALID_COLUMNS := by rw [hcol]; decide
  have hpri' : req.priority.getD "normal" ∈ VALID_PRIORITIES := by simpa using hpri
  have h : createTask db userId req = (CreateResult.serverError "Failed to create task", db) := by
    simp [createTask, ht, hcol', hpri', hb]
  exact ⟨h, by rw [h]⟩

/-- Witness for `create_today_always_500` at the concrete full-`today`
state. -/
theorem create_today_always_500_witness :
    c4req.column = some "today"
    ∧ createTask todayFullDb 1 c4req
        = (CreateResult.serverError "Failed to create task", todayFullDb)
    ∧ countColumn (createTask todayFullDb 1 c4req).2 1 "today"
        = countColumn todayFullDb 1 "today" := by
  have h := create_today_always_500 todayFullDb 1 c4req 1 (by decide) rfl (by decide) (by decide)
  exact ⟨rfl, h.1, h.2⟩

/-- Claim C10 (code bug): replace-all is exactly what the handler's
DELETE-then-INSERT child-row code implements, but no PATCH ever succeeds:
a request that also carries a scalar field dies at the malformed UPDATE
and rolls back with the tag and assignee rows NOT replaced, while a
request carrying only the arrays commits the replacement — duplicates
collapsed, blanks dropped, tags trimmed — and then answers 500 at the
malformed post-commit re-fetch. -/
theorem patch_never_succeeds_trace :
    patchTask scenBDb 1 1 c10mixedReq
      = (PatchResult.serverError "Failed to update task", scenBDb)
    ∧ patchTask scenBDb 1 1 c10req
      = (PatchResult.serverError "Failed to update task", c10db1)
    ∧ (∀ u ∈ c10db1.tasks, u.id = 1 → u.tags = ["a", "b"] ∧ u.assignees = [7, 8])
    ∧ (PatchResult.serverError "Failed to update task").status = 500 :=
  ⟨by decide, by decide, by decide, rfl⟩
